import Mathlib

/-!
Verification of the store-data normalization and marker-classification
pipeline of the family_icecream_location repository.

The JavaScript source is shallowly embedded:
* JS numbers are modelled by `JSNum`: NaN, the two infinities, and finite
  values represented as exact rationals (the decimal strings appearing in
  the data parse exactly; double rounding and overflow-to-infinity of
  huge literals are not modelled, the literal "Infinity" is).
* JS scalar values (the field values of raw store records) are modelled by
  `JSVal`; raw records are association lists of fields where a later
  binding overwrites an earlier one, as JS property assignment does.
* Code that can throw a TypeError (calling `.includes` on a non-string)
  is modelled in the `Except String` monad; the error string stands for
  the thrown exception's message.
-/

/-- A JS number: NaN, infinities, or a finite value (exact rational). -/
inductive JSNum where
  | nan : JSNum
  | posInf : JSNum
  | negInf : JSNum
  | finite (q : ℚ) : JSNum
deriving DecidableEq, Repr

/-- The JS `isNaN` test on an already-converted number. -/
def JSNum.isNaN : JSNum → Bool
  | .nan => true
  | _ => false

/-- Whether a JS number is finite (`Number.isFinite`): not NaN and not infinite. -/
def JSNum.isFinite : JSNum → Bool
  | .finite _ => true
  | _ => false

/-- A scalar JS value: the possible field values of a raw store record
(JSON scalars plus `undefined` for an absent field). -/
inductive JSVal where
  | undefined : JSVal
  | jnull : JSVal
  | jbool (b : Bool) : JSVal
  | jnum (n : JSNum) : JSVal
  | jstr (s : String) : JSVal
deriving DecidableEq, Repr

/-- JS truthiness: `undefined`, `null`, `false`, `0`, `NaN` and `""` are falsy. -/
def truthy : JSVal → Bool
  | .undefined => false
  | .jnull => false
  | .jbool b => b
  | .jnum .nan => false
  | .jnum (.finite q) => !(q = 0)
  | .jnum _ => true
  | .jstr s => !(s = "")

/-- The JS short-circuit `a || b` specialised to the pattern `x || default`
used throughout the worker: the value itself when truthy, else the default. -/
def jsOr (a b : JSVal) : JSVal := if truthy a then a else b

/-- Boolean list-prefix test, `ps` a prefix of `cs`. -/
def prefixList : List Char → List Char → Bool
  | [], _ => true
  | _ :: _, [] => false
  | p :: ps, c :: cs => p = c && prefixList ps cs

/-- Boolean list-infix test: `pat` occurs contiguously inside the second list. -/
def infixList (pat : List Char) : List Char → Bool
  | [] => prefixList pat []
  | c :: cs => prefixList pat (c :: cs) || infixList pat cs

/-- Substring containment, the semantics of JS `String.prototype.includes`. -/
def containsSub (s pat : String) : Bool := infixList pat.data s.data

/-- JS `receiver.includes(pat)`: substring test on a string receiver, a thrown
TypeError on any other receiver (only strings reach `.includes` with substring
semantics among the scalar values; numbers, booleans etc. have no such method). -/
def jsIncludes (v : JSVal) (pat : String) : Except String Bool :=
  match v with
  | .jstr s => .ok (containsSub s pat)
  | _ => .error "TypeError: includes is not a function"

/-- A value that is a string or falsy: exactly the field values on which the
`(x || default).includes(...)` pattern cannot throw. -/
def stringOrFalsy : JSVal → Bool
  | .jstr _ => true
  | v => !truthy v

/-- Characters treated as whitespace by `parseFloat` (ASCII whitespace;
the unicode space classes also skipped by JS never occur in the data). -/
def jsWhitespace (c : Char) : Bool :=
  c = ' ' || c = '\t' || c = '\n' || c = '\r' || c = '\x0b' || c = '\x0c'

/-- Decimal value of a digit list, accumulator style. -/
def digitsVal (acc : Nat) : List Char → Nat
  | [] => acc
  | c :: cs => digitsVal (acc * 10 + (c.toNat - '0'.toNat)) cs

/-- The optional exponent part after the mantissa: `e`/`E`, an optional sign and
digits; contributes zero when malformed, exactly as `parseFloat` stops there. -/
def parseExponent (cs : List Char) : Int :=
  match cs with
  | 'e' :: rest | 'E' :: rest =>
    match rest with
    | '+' :: r => let (eds, _) := r.span Char.isDigit
                  if eds = [] then 0 else (digitsVal 0 eds : Int)
    | '-' :: r => let (eds, _) := r.span Char.isDigit
                  if eds = [] then 0 else -(digitsVal 0 eds : Int)
    | _ => let (eds, _) := rest.span Char.isDigit
           if eds = [] then 0 else (digitsVal 0 eds : Int)
  | _ => 0

/-- Exact value of `sign * digits * 10 ^ e10`, built with `mkRat` only. -/
def decimalValue (sign : Int) (digits : Nat) (e10 : Int) : ℚ :=
  if 0 ≤ e10 then mkRat (sign * digits * (10 : Int) ^ e10.toNat) 1
  else mkRat (sign * digits) ((10 : Nat) ^ (-e10).toNat)

/-- The ECMAScript `parseFloat` grammar on a character list: skip leading
whitespace, optional sign, then either the literal `Infinity` or a decimal
mantissa with optional fraction and exponent; NaN when no digits are found.
Trailing garbage is ignored (longest valid prefix), as in JS. -/
def parseFloatChars (cs0 : List Char) : JSNum :=
  let cs1 := cs0.dropWhile jsWhitespace
  let signAndRest : Int × List Char :=
    match cs1 with
    | '+' :: r => (1, r)
    | '-' :: r => (-1, r)
    | _ => (1, cs1)
  let sign := signAndRest.1
  let cs2 := signAndRest.2
  if prefixList "Infinity".data cs2 then
    if sign = 1 then .posInf else .negInf
  else
    let (ip, r1) := cs2.span Char.isDigit
    let fpAndRest : List Char × List Char :=
      match r1 with
      | '.' :: r => r.span Char.isDigit
      | _ => ([], r1)
    let fp := fpAndRest.1
    let r2 := fpAndRest.2
    if ip = [] && fp = [] then .nan
    else
      let digits := digitsVal 0 (ip ++ fp)
      let e10 : Int := parseExponent r2 - fp.length
      .finite (decimalValue sign digits e10)

/-- JS `parseFloat(v)` on a scalar value: strings are parsed; numbers
round-trip through `ToString` unchanged; `undefined`, `null` and booleans
stringify to words that parse as NaN. -/
def parseFloat : JSVal → JSNum
  | .jstr s => parseFloatChars s.data
  | .jnum n => n
  | .undefined => .nan
  | .jnull => .nan
  | .jbool _ => .nan

/-- A raw record object: fields in assignment order, a later binding for the
same key overwriting an earlier one (JS property assignment semantics). -/
def RawObj := List (String × JSVal)
deriving DecidableEq, Repr

/-- Property read `o[k]`: the value of the last binding of `k`, `undefined`
when the field is absent. -/
def getField (o : RawObj) (k : String) : JSVal :=
  ((List.reverse o).lookup k).getD .undefined

/-- The `MARKERS` section of the configuration (config.js). -/
structure MarkersConfig where
  BLUE : String
  RED : String
  BLUE_STRIPED : String
  RED_STRIPED : String
  DEFAULT : String
deriving DecidableEq, Repr

/-- The `COLORS` section of the configuration (config.js). -/
structure ColorsConfig where
  BLUE : String
  RED : String
deriving DecidableEq, Repr

/-- The configuration object the main thread posts to the worker
(`MARKERS` and `COLORS`; the data URL is consumed by the modelled fetch). -/
structure WorkerConfig where
  MARKERS : MarkersConfig
  COLORS : ColorsConfig
deriving DecidableEq, Repr

/-- The concrete configuration of config.js. -/
def appConfig : WorkerConfig :=
  { MARKERS := { BLUE := "blue", RED := "red", BLUE_STRIPED := "blue-striped",
                 RED_STRIPED := "red-striped", DEFAULT := "blue" }
    COLORS := { BLUE := "#2b82cb", RED := "#e04e39" } }

/-- A normalized store record, the object built by `normalizeStoreData`
in its `isValid: true` shape (store.worker.js). -/
structure StoreRecord where
  name : JSVal
  latitude : JSNum
  longitude : JSNum
  address : JSVal
  phone : JSVal
  flavorType : JSVal
  markerColor : JSVal
  isSpecialShape : Bool
  displayColor : String
deriving DecidableEq, Repr

/-- Result of normalization: the `{ isValid: false }` rejection object or a
record carrying `isValid: true`. -/
inductive NormResult where
  | invalid : NormResult
  | valid (s : StoreRecord) : NormResult
deriving DecidableEq, Repr

/-- The coordinate validity check of `normalizeStoreData` (store.worker.js
line 14): `rawStore.py && rawStore.px && !isNaN(parseFloat(rawStore.py)) &&
!isNaN(parseFloat(rawStore.px))`. -/
def hasCoordinates (rawStore : RawObj) : Bool :=
  truthy (getField rawStore "py") && truthy (getField rawStore "px")
    && !(parseFloat (getField rawStore "py")).isNaN
    && !(parseFloat (getField rawStore "px")).isNaN

/-- `normalizeStoreData(rawStore, config)` of store.worker.js: reject when the
coordinate check fails, otherwise derive the special-shape flag, marker color
token, display color and defaulted text fields. The two `.includes` calls can
throw on truthy non-string fields, hence the `Except`. -/
def normalizeStoreData (rawStore : RawObj) (config : WorkerConfig) :
    Except String NormResult :=
  if hasCoordinates rawStore = false then .ok .invalid
  else
    let flavorType := jsOr (getField rawStore "flavorType") (.jstr "")
    match jsIncludes flavorType "特殊造型" with
    | .error m => .error m
    | .ok isSpecialShape =>
      let markerColor := jsOr (getField rawStore "markerColor") (.jstr config.MARKERS.DEFAULT)
      match jsIncludes markerColor "red" with
      | .error m => .error m
      | .ok isRed =>
        let displayColor := if isRed then config.COLORS.RED else config.COLORS.BLUE
        .ok (.valid
          { name := jsOr (getField rawStore "NAME") (.jstr "Unknown Store")
            latitude := parseFloat (getField rawStore "py")
            longitude := parseFloat (getField rawStore "px")
            address := jsOr (getField rawStore "addr") (.jstr "")
            phone := jsOr (getField rawStore "TEL") (.jstr "")
            flavorType := flavorType
            markerColor := markerColor
            isSpecialShape := isSpecialShape
            displayColor := displayColor })

deriving instance DecidableEq for Except

/-- Sequential effectful map, the semantics of JS `Array.prototype.map` with a
callback that can throw: elements are processed in order and the first thrown
error aborts the whole map. -/
def exceptMap (f : α → Except String β) : List α → Except String (List β)
  | [] => .ok []
  | a :: as =>
    match f a with
    | .error m => .error m
    | .ok b =>
      match exceptMap f as with
      | .error m => .error m
      | .ok bs => .ok (b :: bs)

/-- The projection used by `.filter(store => store.isValid)`: keep the records
of the results marked valid, drop the rejections. -/
def validPart : NormResult → Option StoreRecord
  | .valid s => some s
  | .invalid => none

/-- The columnar-row expansion of store.worker.js lines 66-69: an object whose
`keys[index]` field is `row[index]` (`undefined` past the row's end), later
duplicate keys overwriting earlier ones. -/
def buildStoreObj (ks : List String) (row : List JSVal) : RawObj :=
  ks.enum.map (fun p => (p.2, row.getD p.1 .undefined))

/-- The value found at the payload's `keys` property: either a proper array of
field-name strings or some other scalar (`atom .undefined` when absent). -/
inductive KeysField where
  | atom (v : JSVal) : KeysField
  | arr (ks : List String) : KeysField
deriving DecidableEq, Repr

/-- The value found at the payload's `data` property: an array of positional
rows or some other scalar (`atom .undefined` when absent). -/
inductive DataField where
  | atom (v : JSVal) : DataField
  | arr (rows : List (List JSVal)) : DataField
deriving DecidableEq, Repr

/-- A JSON object at top level of the fetched payload, seen through the three
properties the worker reads. -/
structure PayloadObject where
  keys : KeysField
  data : DataField
  last_updated : JSVal
deriving DecidableEq, Repr

/-- The parsed JSON payload: a top-level object or a bare array of records. -/
inductive RawData where
  | object (o : PayloadObject) : RawData
  | array (elems : List RawObj) : RawData
deriving DecidableEq, Repr

/-- Truthiness of the `keys` property (any array, even empty, is truthy). -/
def keysTruthy : KeysField → Bool
  | .atom v => truthy v
  | .arr _ => true

/-- `Array.isArray` on the `data` property. -/
def isDataArray : DataField → Bool
  | .atom _ => false
  | .arr _ => true

/-- The shape test the worker actually performs (store.worker.js lines 59
and 73): `rawData.keys && Array.isArray(rawData.data)` for columnar, else
`Array.isArray(rawData)` for legacy. -/
def shapeDetected : RawData → Bool
  | .object o => keysTruthy o.keys && isDataArray o.data
  | .array _ => true

/-- Modelled from the spec: the accepted wire shapes are "an object with a
`keys` sequence and a `data` sequence, or a bare array" — this demands that
`keys` really be a sequence, unlike the code's truthiness test. -/
def matchesAcceptedShape : RawData → Bool
  | .object o =>
    (match o.keys with
     | .arr _ => true
     | .atom _ => false) && isDataArray o.data
  | .array _ => true

/-- Processing of one columnar row (the callback of store.worker.js lines
64-70): zip the keys over the row into an object and normalize it; when
`keys` is not an array the row's `keys.forEach` call throws. -/
def processRow (keys : KeysField) (config : WorkerConfig) (row : List JSVal) :
    Except String NormResult :=
  match keys with
  | .arr ks => normalizeStoreData (buildStoreObj ks row) config
  | .atom _ => .error "TypeError: keys.forEach is not a function"

/-- The store list of the columnar branch: map each row to an object via the
`keys` list and normalize, then filter the valid results. -/
def columnarStores (keys : KeysField) (rows : List (List JSVal))
    (config : WorkerConfig) : Except String (List StoreRecord) :=
  match exceptMap (processRow keys config) rows with
  | .error m => .error m
  | .ok normed => .ok (normed.filterMap validPart)

/-- The store list of the legacy branch: normalize each element directly,
then filter the valid results. -/
def legacyStores (elems : List RawObj) (config : WorkerConfig) :
    Except String (List StoreRecord) :=
  match exceptMap (fun e => normalizeStoreData e config) elems with
  | .error m => .error m
  | .ok normed => .ok (normed.filterMap validPart)

/-- The legacy branch's timestamp: the first element's truthy `last_updated`
field when the array is nonempty, else the initial empty string. -/
def legacyLastUpdated (elems : List RawObj) : JSVal :=
  match elems with
  | [] => .jstr ""
  | e :: _ =>
    if truthy (getField e "last_updated") then getField e "last_updated"
    else .jstr ""

/-- The whole legacy branch (store.worker.js lines 73-80): timestamp from the
first element's side channel, stores normalized and filtered. -/
def processLegacy (elems : List RawObj) (config : WorkerConfig) :
    Except String (List StoreRecord × JSVal) :=
  match legacyStores elems config with
  | .error m => .error m
  | .ok stores => .ok (stores, legacyLastUpdated elems)

/-- Shape dispatch on the parsed payload (store.worker.js lines 59-83):
columnar when `rawData.keys` is truthy and `rawData.data` is an array, legacy
when the payload is a bare array, otherwise the `Invalid data format` error. -/
def processRawData (rawData : RawData) (config : WorkerConfig) :
    Except String (List StoreRecord × JSVal) :=
  match rawData with
  | .object o =>
    match o.data with
    | .arr rows =>
      if keysTruthy o.keys then
        match columnarStores o.keys rows config with
        | .error m => .error m
        | .ok stores => .ok (stores, jsOr o.last_updated (.jstr ""))
      else .error "Invalid data format"
    | .atom _ => .error "Invalid data format"
  | .array elems => processLegacy elems config

/-- The modelled HTTP response: parsed JSON body on success, or a non-ok
status (its `statusText`). -/
inductive FetchResponse where
  | ok (body : RawData) : FetchResponse
  | notOk (statusText : String) : FetchResponse
deriving DecidableEq, Repr

/-- The message the worker posts back: `SUCCESS` with stores and timestamp, or
`ERROR` with the caught error's message. -/
inductive WorkerMessage where
  | success (stores : List StoreRecord) (lastUpdated : JSVal) : WorkerMessage
  | error (message : String) : WorkerMessage
deriving DecidableEq, Repr

/-- `fetchAndProcessStores` of store.worker.js: a non-ok response throws the
network error, otherwise the payload is dispatched by shape; every thrown
error is caught and posted as an `ERROR` message. -/
def fetchAndProcessStores (config : WorkerConfig) (response : FetchResponse) :
    WorkerMessage :=
  match response with
  | .notOk st => .error ("Network response was not ok: " ++ st)
  | .ok rawData =>
    match processRawData rawData config with
    | .ok (stores, lu) => .success stores lu
    | .error m => .error m

/-- The records that survive normalization, in source order: the direct
filterMap description the pipeline's map-then-filter must agree with. -/
def survivorsOf (elems : List RawObj) (config : WorkerConfig) :
    List StoreRecord :=
  elems.filterMap (fun e =>
    match normalizeStoreData e config with
    | .ok (.valid s) => some s
    | _ => none)

/-- How many records of the input are rejected by normalization. -/
def rejectedCount (elems : List RawObj) (config : WorkerConfig) : Nat :=
  elems.countP (fun e => decide (normalizeStoreData e config = .ok .invalid))

/-- The CSS pin icon built by `UIHelpers.createPinIcon` (modelled by the html
string it wraps, which distinguishes the four variants). -/
def createPinIcon (className : String) : String :=
  "<div class=\"custom-pin " ++ className ++ "\"></div>"

/-- The icon table built by `MapController._initIcons`: the four configured
marker keys mapped to their pin icons. -/
def icons : List (String × String) :=
  [(appConfig.MARKERS.BLUE, createPinIcon "marker-blue"),
   (appConfig.MARKERS.RED, createPinIcon "marker-red"),
   (appConfig.MARKERS.BLUE_STRIPED, createPinIcon "marker-blue-striped"),
   (appConfig.MARKERS.RED_STRIPED, createPinIcon "marker-red-striped")]

/-- The icon chosen by `renderMarkers` (MapController.js line 151):
`this.icons[store.markerColor] || this.icons[CONFIG.MARKERS.DEFAULT]` — an
exact-token lookup with the default blue pin as fallback. A non-string
`markerColor` stringifies to a property key that is never one of the four
configured keys, so it also falls back to the default. -/
def selectIcon (markerColor : JSVal) : String :=
  match markerColor with
  | .jstr s => (icons.lookup s).getD ((icons.lookup appConfig.MARKERS.DEFAULT).getD "")
  | _ => (icons.lookup appConfig.MARKERS.DEFAULT).getD ""

/-- The `redCount` accumulation of the cluster icon factory (MapController.js
lines 54-59): count members whose `markerColor` option is truthy and contains
`red`; calling `.includes` on a truthy non-string member throws. -/
def countRed : List JSVal → Except String Nat
  | [] => .ok 0
  | v :: vs =>
    match (if truthy v then jsIncludes v "red" else .ok false) with
    | .error m => .error m
    | .ok isRed =>
      match countRed vs with
      | .error m => .error m
      | .ok rest => .ok ((if isRed then 1 else 0) + rest)

/-- The cluster icon class decision (MapController.js lines 62-69), on the
member markers' `markerColor` options: exactly half red → split, strictly
more than half → red, otherwise blue. `markers.length / 2` is JS float
division, modelled by exact rational division. -/
def clusterColorClass (markerColors : List JSVal) : Except String String :=
  match countRed markerColors with
  | .error m => .error m
  | .ok redCount =>
    .ok (if (redCount : ℚ) = (markerColors.length : ℚ) / 2 then "marker-cluster-split"
         else if (redCount : ℚ) > (markerColors.length : ℚ) / 2 then "marker-cluster-red"
         else "marker-cluster-blue")

/-- Character-by-character global replacement, the semantics of the five
`String.prototype.replace(/c/g, rep)` calls of `UIHelpers.escapeHtml`. -/
def replaceAllChar (c : Char) (rep : List Char) : List Char → List Char
  | [] => []
  | x :: xs => (if x = c then rep else [x]) ++ replaceAllChar c rep xs

/-- The escaping pass of `UIHelpers.escapeHtml` (config.js lines 77-82): the
five replacements applied in source order, ampersand first. -/
def escapeChars (cs : List Char) : List Char :=
  replaceAllChar '\'' "&#039;".data
    (replaceAllChar '"' "&quot;".data
      (replaceAllChar '>' "&gt;".data
        (replaceAllChar '<' "&lt;".data
          (replaceAllChar '&' "&amp;".data cs))))

/-- The per-character entity map the sequential replacements amount to. -/
def entityOf (c : Char) : List Char :=
  if c = '&' then "&amp;".data
  else if c = '<' then "&lt;".data
  else if c = '>' then "&gt;".data
  else if c = '"' then "&quot;".data
  else if c = '\'' then "&#039;".data
  else [c]

/-- JS `ToString` on a scalar number. Integral finite values stringify
exactly; the shortest-round-trip formatting of non-integral doubles is
approximated by the rational's representation (no claim depends on it). -/
def jsNumToStr : JSNum → String
  | .nan => "NaN"
  | .posInf => "Infinity"
  | .negInf => "-Infinity"
  | .finite q => if q.den = 1 then toString q.num else toString q

/-- JS `ToString` on a scalar value (the `String(text)` cast of escapeHtml and
the property-key/URI coercions). -/
def jsToStr : JSVal → String
  | .undefined => "undefined"
  | .jnull => "null"
  | .jbool true => "true"
  | .jbool false => "false"
  | .jnum n => jsNumToStr n
  | .jstr s => s

/-- `UIHelpers.escapeHtml`: empty string for a falsy argument, otherwise the
stringified argument with the five characters replaced. -/
def escapeHtml (text : JSVal) : String :=
  if truthy text = false then "" else ⟨escapeChars (jsToStr text).data⟩

/-- First-occurrence replacement, the semantics of the single
`replace(' (', '<br>(')` call (a string pattern replaces only once). -/
def replaceFirstChars : List Char → List Char → List Char → List Char
  | [], _, _ => []
  | c :: cs, pat, rep =>
    if prefixList pat (c :: cs) then rep ++ (c :: cs).drop pat.length
    else c :: replaceFirstChars cs pat rep

/-- First-occurrence replacement on strings. -/
def replaceFirstStr (s pat rep : String) : String :=
  ⟨replaceFirstChars s.data pat.data rep.data⟩

/-- The characters `encodeURIComponent` leaves unescaped:
alphanumerics and `- _ . ! ~ * ' ( )`. -/
def uriUnreserved (c : Char) : Bool :=
  c.isAlpha || c.isDigit || c = '-' || c = '_' || c = '.' || c = '!'
    || c = '~' || c = '*' || c = '\'' || c = '(' || c = ')'

/-- UTF-8 bytes of a character, for percent-encoding. -/
def utf8Bytes (c : Char) : List Nat :=
  let n := c.toNat
  if n < 0x80 then [n]
  else if n < 0x800 then
    [0xC0 + n / 0x40, 0x80 + n % 0x40]
  else if n < 0x10000 then
    [0xE0 + n / 0x1000, 0x80 + n / 0x40 % 0x40, 0x80 + n % 0x40]
  else
    [0xF0 + n / 0x40000, 0x80 + n / 0x1000 % 0x40, 0x80 + n / 0x40 % 0x40,
     0x80 + n % 0x40]

/-- Uppercase hexadecimal digit. -/
def hexDigit (n : Nat) : Char :=
  "0123456789ABCDEF".data.getD n '0'

/-- Modelled from the ECMAScript builtin `encodeURIComponent` used for the
popup's map-search link: unreserved characters kept, every other character
percent-encoded byte by byte. -/
def encodeURIComponent (s : String) : String :=
  ⟨s.data.flatMap (fun c =>
    if uriUnreserved c then [c]
    else (utf8Bytes c).flatMap (fun b => ['%', hexDigit (b / 16), hexDigit (b % 16)]))⟩

/-- CSS class names from `CONFIG.UI.CSS_CLASSES` (config.js). -/
def uiClassPopupFlavor : String := "store-popup-flavor"

/-- CSS class for the line-broken special-shape flavor label. -/
def uiClassPopupFlavorMultiline : String := "store-popup-flavor--multiline"

/-- CSS class of the popup's map-search link. -/
def uiClassPopupLink : String := "store-popup-link"

/-- `UIHelpers.createStorePopupContent` (config.js lines 90-123): the popup
template with escaped name, address, phone and flavor, the name's map-search
link URI-encoded, and the special-shape flavor line-broken at its first
` (` and given the multiline class. -/
def createStorePopupContent (store : StoreRecord) : String :=
  let safeName := escapeHtml store.name
  let mapUrl := "https://www.google.com/maps/search/"
    ++ encodeURIComponent (jsToStr store.name)
  let safeAddress := escapeHtml store.address
  let safePhone := escapeHtml store.phone
  let flavorBase := escapeHtml store.flavorType
  let flavorHtml := if store.isSpecialShape then
      replaceFirstStr flavorBase " (" "<br>(" else flavorBase
  let flavorClass := if store.isSpecialShape then
      uiClassPopupFlavor ++ " " ++ uiClassPopupFlavorMultiline else uiClassPopupFlavor
  let colorStyle := "color: " ++ store.displayColor ++ ";"
  "\n            <div class=\"store-popup\">\n                <b>\n                    <a href=\""
    ++ mapUrl
    ++ "\" \n                       target=\"_blank\" \n                       rel=\"noopener noreferrer\" \n                       class=\""
    ++ uiClassPopupLink
    ++ "\">\n                        "
    ++ safeName
    ++ "\n                    </a>\n                </b><br>\n                <span class=\""
    ++ flavorClass
    ++ "\" style=\""
    ++ colorStyle
    ++ "\">\n                    "
    ++ flavorHtml
    ++ "\n                </span><br>\n                地址: "
    ++ safeAddress
    ++ "<br>\n                電話: "
    ++ safePhone
    ++ "\n            </div>\n        "

/-- A sample raw record whose striped marker token matches a configured icon
key (used to exercise the classification results on concrete data). -/
def sampleStripedRaw : RawObj :=
  [("py", .jstr "1"), ("px", .jstr "2"),
   ("markerColor", .jstr "blue-striped"), ("flavorType", .jstr "特殊造型")]

/-- The normalized record of `sampleStripedRaw`. -/
def sampleStripedRec : StoreRecord :=
  { name := .jstr "Unknown Store", latitude := .finite 1, longitude := .finite 2,
    address := .jstr "", phone := .jstr "", flavorType := .jstr "特殊造型",
    markerColor := .jstr "blue-striped", isSpecialShape := true,
    displayColor := "#2b82cb" }

/-- The spec's legacy-payload scenario element: first array slot carrying the
`last_updated` side channel together with real coordinates. -/
def scenarioLegacyElem : RawObj :=
  [("last_updated", .jstr "2024-02-02"), ("NAME", .jstr "C"),
   ("py", .jstr "25.0"), ("px", .jstr "121.0"),
   ("flavorType", .jstr "雙口味 特殊造型 (圓)"), ("markerColor", .jstr "red")]

/-- The normalized record of `scenarioLegacyElem`. -/
def scenarioLegacyRec : StoreRecord :=
  { name := .jstr "C", latitude := .finite 25, longitude := .finite 121,
    address := .jstr "", phone := .jstr "",
    flavorType := .jstr "雙口味 特殊造型 (圓)", markerColor := .jstr "red",
    isSpecialShape := true, displayColor := "#e04e39" }

/-- A raw record whose marker token contains `red` without being one of the
four configured icon keys. -/
def darkredRaw : RawObj :=
  [("py", .jstr "1"), ("px", .jstr "2"), ("markerColor", .jstr "darkred")]

/-- The normalized record of `darkredRaw`. -/
def darkredRec : StoreRecord :=
  { name := .jstr "Unknown Store", latitude := .finite 1, longitude := .finite 2,
    address := .jstr "", phone := .jstr "", flavorType := .jstr "",
    markerColor := .jstr "darkred", isSpecialShape := false,
    displayColor := "#e04e39" }

/-- A successful `.includes` call means the receiver was a string and the
result is the substring test. -/
theorem jsIncludes_ok {v : JSVal} {pat : String} {b : Bool}
    (h : jsIncludes v pat = .ok b) : ∃ s, v = .jstr s ∧ b = containsSub s pat := by
  cases v <;> simp [jsIncludes] at h
  case jstr s => exact ⟨s, rfl, h.symm⟩

/-- A failed `.includes` call always carries the TypeError message. -/
theorem jsIncludes_error {v : JSVal} {pat : String} {m : String}
    (h : jsIncludes v pat = .error m) :
    m = "TypeError: includes is not a function" := by
  cases v <;> simp_all [jsIncludes]

/-- `x || default` yields a string whenever `x` is a string or falsy. -/
theorem jsOr_of_stringOrFalsy {v : JSVal} {d : String}
    (h : stringOrFalsy v = true) : ∃ s : String, jsOr v (.jstr d) = .jstr s := by
  cases v with
  | jstr s =>
    unfold jsOr
    split
    · exact ⟨s, rfl⟩
    · exact ⟨d, rfl⟩
  | undefined => exact ⟨d, rfl⟩
  | jnull => exact ⟨d, rfl⟩
  | jbool b =>
    have hb : truthy (.jbool b) = false := by simpa [stringOrFalsy] using h
    exact ⟨d, by simp [jsOr, hb]⟩
  | jnum n =>
    have hb : truthy (.jnum n) = false := by simpa [stringOrFalsy] using h
    exact ⟨d, by simp [jsOr, hb]⟩

/-- Inversion of a successful, accepting run of `normalizeStoreData`: the
coordinate check passed and every field of the record is the derived value. -/
theorem normalize_ok_valid {raw : RawObj} {cfg : WorkerConfig} {s : StoreRecord}
    (h : normalizeStoreData raw cfg = .ok (.valid s)) :
    hasCoordinates raw = true
    ∧ s.name = jsOr (getField raw "NAME") (.jstr "Unknown Store")
    ∧ s.latitude = parseFloat (getField raw "py")
    ∧ s.longitude = parseFloat (getField raw "px")
    ∧ s.address = jsOr (getField raw "addr") (.jstr "")
    ∧ s.phone = jsOr (getField raw "TEL") (.jstr "")
    ∧ (∃ fl : String,
        jsOr (getField raw "flavorType") (.jstr "") = .jstr fl
        ∧ s.flavorType = .jstr fl
        ∧ s.isSpecialShape = containsSub fl "特殊造型")
    ∧ (∃ mc : String,
        jsOr (getField raw "markerColor") (.jstr cfg.MARKERS.DEFAULT) = .jstr mc
        ∧ s.markerColor = .jstr mc
        ∧ s.displayColor
            = (if containsSub mc "red" = true then cfg.COLORS.RED else cfg.COLORS.BLUE)) := by
  unfold normalizeStoreData at h
  cases hh : hasCoordinates raw with
  | false => rw [hh] at h; simp at h
  | true =>
    rw [hh] at h
    rw [if_neg (by simp)] at h
    simp only [] at h
    refine ⟨rfl, ?_⟩
    cases h1 : jsIncludes (jsOr (getField raw "flavorType") (.jstr "")) "特殊造型" with
    | error m => rw [h1] at h; simp at h
    | ok b1 =>
      rw [h1] at h
      cases h2 : jsIncludes (jsOr (getField raw "markerColor")
          (.jstr cfg.MARKERS.DEFAULT)) "red" with
      | error m => rw [h2] at h; simp at h
      | ok b2 =>
        rw [h2] at h
        simp only [Except.ok.injEq, NormResult.valid.injEq] at h
        obtain ⟨fl, hfl, hb1⟩ := jsIncludes_ok h1
        obtain ⟨mc, hmc, hb2⟩ := jsIncludes_ok h2
        subst h
        refine ⟨rfl, rfl, rfl, rfl, rfl, ⟨fl, hfl, hfl, hb1⟩, ⟨mc, hmc, hmc, ?_⟩⟩
        rw [hb2]

/-- Normalization returns the rejection object exactly when the coordinate
check fails. -/
theorem normalize_invalid_iff (raw : RawObj) (cfg : WorkerConfig) :
    normalizeStoreData raw cfg = .ok .invalid ↔ hasCoordinates raw = false := by
  constructor
  · intro h
    unfold normalizeStoreData at h
    cases hh : hasCoordinates raw with
    | false => rfl
    | true =>
      rw [hh] at h
      rw [if_neg (by simp)] at h
      simp only [] at h
      cases h1 : jsIncludes (jsOr (getField raw "flavorType") (.jstr "")) "特殊造型" with
      | error m => rw [h1] at h; simp at h
      | ok b1 =>
        rw [h1] at h
        cases h2 : jsIncludes (jsOr (getField raw "markerColor")
            (.jstr cfg.MARKERS.DEFAULT)) "red" with
        | error m => rw [h2] at h; simp at h
        | ok b2 => rw [h2] at h; simp at h
  · intro h
    unfold normalizeStoreData
    simp [h]

/-- The only error `normalizeStoreData` can produce is the `.includes`
TypeError. -/
theorem normalize_error {raw : RawObj} {cfg : WorkerConfig} {m : String}
    (h : normalizeStoreData raw cfg = .error m) :
    m = "TypeError: includes is not a function" := by
  unfold normalizeStoreData at h
  cases hh : hasCoordinates raw with
  | false => rw [hh] at h; simp at h
  | true =>
    rw [hh] at h
    rw [if_neg (by simp)] at h
    simp only [] at h
    cases h1 : jsIncludes (jsOr (getField raw "flavorType") (.jstr "")) "特殊造型" with
    | error m1 =>
      rw [h1] at h
      simp only [Except.error.injEq] at h
      subst h
      exact jsIncludes_error h1
    | ok b1 =>
      rw [h1] at h
      cases h2 : jsIncludes (jsOr (getField raw "markerColor")
          (.jstr cfg.MARKERS.DEFAULT)) "red" with
      | error m2 =>
        rw [h2] at h
        simp only [Except.error.injEq] at h
        subst h
        exact jsIncludes_error h2
      | ok b2 => rw [h2] at h; simp at h

/-- Normalization never throws on a record whose `flavorType` and
`markerColor` are strings or falsy. -/
theorem normalize_total {raw : RawObj} {cfg : WorkerConfig}
    (hf : stringOrFalsy (getField raw "flavorType") = true)
    (hm : stringOrFalsy (getField raw "markerColor") = true) :
    ∃ r : NormResult, normalizeStoreData raw cfg = .ok r := by
  unfold normalizeStoreData
  cases hh : hasCoordinates raw with
  | false => exact ⟨.invalid, by simp⟩
  | true =>
    rw [if_neg (by simp)]
    simp only []
    obtain ⟨fl, hfl⟩ := @jsOr_of_stringOrFalsy (getField raw "flavorType") "" hf
    obtain ⟨mc, hmc⟩ := @jsOr_of_stringOrFalsy (getField raw "markerColor") cfg.MARKERS.DEFAULT hm
    rw [hfl, hmc]
    exact ⟨_, rfl⟩

/-- Mapping an effectful function over a mapped list fuses. -/
theorem exceptMap_map {α β γ : Type} (f : β → Except String γ) (g : α → β) :
    ∀ l : List α, exceptMap f (l.map g) = exceptMap (fun a => f (g a)) l := by
  intro l
  induction l with
  | nil => rfl
  | cons a as ih => simp only [List.map_cons, exceptMap, ih]

/-- A failing effectful map pinpoints a failing element. -/
theorem exceptMap_error {α β : Type} {f : α → Except String β} {l : List α}
    {m : String} (h : exceptMap f l = .error m) : ∃ a ∈ l, f a = .error m := by
  induction l with
  | nil => simp [exceptMap] at h
  | cons a as ih =>
    unfold exceptMap at h
    cases hf : f a with
    | error m1 =>
      rw [hf] at h
      simp only [Except.error.injEq] at h
      exact ⟨a, by simp, by rw [hf, h]⟩
    | ok b =>
      rw [hf] at h
      cases hm : exceptMap f as with
      | error m2 =>
        rw [hm] at h
        simp only [Except.error.injEq] at h
        obtain ⟨a', ha', hfa⟩ := ih (h ▸ hm)
        exact ⟨a', by simp [ha'], hfa⟩
      | ok bs => rw [hm] at h; simp at h

/-- When the per-record normalization map succeeds, filtering the valid
results gives exactly the ordered survivors, and the count of survivors plus
the count of rejections is the input length. -/
theorem exceptMap_norm_ok {cfg : WorkerConfig} :
    ∀ (elems : List RawObj) (rs : List NormResult),
      exceptMap (fun e => normalizeStoreData e cfg) elems = .ok rs →
      rs.filterMap validPart = survivorsOf elems cfg
      ∧ (rs.filterMap validPart).length + rejectedCount elems cfg = elems.length := by
  intro elems
  induction elems with
  | nil =>
    intro rs h
    simp only [exceptMap, Except.ok.injEq] at h
    subst h
    simp [survivorsOf, rejectedCount]
  | cons e es ih =>
    intro rs h
    unfold exceptMap at h
    cases hf : normalizeStoreData e cfg with
    | error m => rw [hf] at h; simp at h
    | ok r =>
      rw [hf] at h
      cases hm : exceptMap (fun e => normalizeStoreData e cfg) es with
      | error m => rw [hm] at h; simp at h
      | ok rs' =>
        rw [hm] at h
        simp only [Except.ok.injEq] at h
        subst h
        obtain ⟨ihs, ihl⟩ := ih rs' hm
        cases r with
        | invalid =>
          refine ⟨?_, ?_⟩
          · simpa [List.filterMap_cons, validPart, survivorsOf, hf] using ihs
          · simp only [List.filterMap_cons, validPart, Option.toList]
            simp [rejectedCount, List.countP_cons, hf] at ihl ⊢
            omega
        | valid s =>
          refine ⟨?_, ?_⟩
          · simp [List.filterMap_cons, validPart, survivorsOf, hf, ihs]
          · simp only [List.filterMap_cons, validPart, Option.toList]
            simp [rejectedCount, List.countP_cons, hf] at ihl ⊢
            omega

/-- The legacy branch's surviving list is the ordered survivors and satisfies
the length bookkeeping. -/
theorem legacyStores_ok {elems : List RawObj} {cfg : WorkerConfig}
    {stores : List StoreRecord} (h : legacyStores elems cfg = .ok stores) :
    stores = survivorsOf elems cfg
    ∧ stores.length + rejectedCount elems cfg = elems.length := by
  unfold legacyStores at h
  cases hm : exceptMap (fun e => normalizeStoreData e cfg) elems with
  | error m => rw [hm] at h; simp at h
  | ok normed =>
    rw [hm] at h
    simp only [Except.ok.injEq] at h
    subst h
    exact exceptMap_norm_ok elems normed hm

/-- The columnar branch with a genuine keys array is the legacy branch on the
zipped objects. -/
theorem columnarStores_eq_legacy (ks : List String) (rows : List (List JSVal))
    (cfg : WorkerConfig) :
    columnarStores (.arr ks) rows cfg
      = legacyStores (rows.map (buildStoreObj ks)) cfg := by
  unfold columnarStores legacyStores
  rw [exceptMap_map]
  rfl

/-- Errors of the legacy branch are only the normalization TypeError. -/
theorem legacyStores_error {elems : List RawObj} {cfg : WorkerConfig}
    {m : String} (h : legacyStores elems cfg = .error m) :
    m = "TypeError: includes is not a function" := by
  unfold legacyStores at h
  cases hm : exceptMap (fun e => normalizeStoreData e cfg) elems with
  | error m1 =>
    rw [hm] at h
    simp only [Except.error.injEq] at h
    obtain ⟨a, _, hfa⟩ := exceptMap_error (h ▸ hm)
    exact normalize_error hfa
  | ok normed => rw [hm] at h; simp at h

/-- Errors of the columnar branch are one of the two TypeErrors, never the
format error. -/
theorem columnarStores_error {keys : KeysField} {rows : List (List JSVal)}
    {cfg : WorkerConfig} {m : String}
    (h : columnarStores keys rows cfg = .error m) :
    m = "TypeError: includes is not a function"
    ∨ m = "TypeError: keys.forEach is not a function" := by
  unfold columnarStores at h
  cases hm : exceptMap (processRow keys cfg) rows with
  | error m1 =>
    rw [hm] at h
    simp only [Except.error.injEq] at h
    obtain ⟨row, _, hrow⟩ := exceptMap_error (h ▸ hm)
    cases keys with
    | arr ks => exact Or.inl (normalize_error hrow)
    | atom v =>
      unfold processRow at hrow
      simp only [Except.error.injEq] at hrow
      exact Or.inr hrow.symm
  | ok normed => rw [hm] at h; simp at h

/-- The `Invalid data format` error occurs exactly when the worker's shape
test fails (the other possible errors carry TypeError messages). -/
theorem processRawData_format_iff (rd : RawData) (cfg : WorkerConfig) :
    processRawData rd cfg = .error "Invalid data format"
      ↔ shapeDetected rd = false := by
  cases rd with
  | object o =>
    cases hd : o.data with
    | atom v => simp [processRawData, shapeDetected, hd, isDataArray]
    | arr rows =>
      by_cases hk : keysTruthy o.keys = true
      · simp only [processRawData, hd, hk, if_true, shapeDetected, isDataArray,
          Bool.and_true]
        constructor
        · intro h
          cases hc : columnarStores o.keys rows cfg with
          | ok stores => rw [hc] at h; simp at h
          | error m =>
            rw [hc] at h
            simp only [Except.error.injEq] at h
            rcases columnarStores_error (h ▸ hc) with hm | hm <;> simp at hm
        · intro h
          simp at h
      · have hk' : keysTruthy o.keys = false := by
          revert hk
          cases keysTruthy o.keys <;> simp
        simp [processRawData, hd, hk', shapeDetected, isDataArray]
  | array elems =>
    simp only [processRawData, shapeDetected]
    constructor
    · intro h
      unfold processLegacy at h
      cases hl : legacyStores elems cfg with
      | ok stores => rw [hl] at h; simp at h
      | error m =>
        rw [hl] at h
        simp only [Except.error.injEq] at h
        have := legacyStores_error (h ▸ hl)
        simp at this
    · intro h
      simp at h

/-- A parsed payload makes the worker post an `ERROR` message exactly when
processing throws. -/
theorem fetch_error_iff (cfg : WorkerConfig) (rd : RawData) (m : String) :
    fetchAndProcessStores cfg (.ok rd) = .error m
      ↔ processRawData rd cfg = .error m := by
  have hdef : fetchAndProcessStores cfg (.ok rd)
      = (match processRawData rd cfg with
         | .ok (stores, lu) => .success stores lu
         | .error m1 => .error m1) := rfl
  rw [hdef]
  cases hp : processRawData rd cfg with
  | ok p =>
    obtain ⟨stores, lu⟩ := p
    simp
  | error m1 => simp

/-- `selectIcon` on a string token is the icon-table lookup with the default
blue pin as fallback. -/
theorem selectIcon_jstr (mc : String) :
    selectIcon (.jstr mc) = (icons.lookup mc).getD (createPinIcon "marker-blue") := by
  unfold selectIcon
  have hinner : (icons.lookup appConfig.MARKERS.DEFAULT).getD ""
      = createPinIcon "marker-blue" := by decide
  rw [hinner]

/-- A token that is none of the four configured keys misses the table and
falls back to the default blue pin. -/
theorem selectIcon_miss {mc : String} (h1 : mc ≠ "blue") (h2 : mc ≠ "red")
    (h3 : mc ≠ "blue-striped") (h4 : mc ≠ "red-striped") :
    selectIcon (.jstr mc) = createPinIcon "marker-blue" := by
  rw [selectIcon_jstr]
  have b1 : (mc == "blue") = false := beq_eq_false_iff_ne.mpr h1
  have b2 : (mc == "red") = false := beq_eq_false_iff_ne.mpr h2
  have b3 : (mc == "blue-striped") = false := beq_eq_false_iff_ne.mpr h3
  have b4 : (mc == "red-striped") = false := beq_eq_false_iff_ne.mpr h4
  have hnone : icons.lookup mc = none := by
    simp [icons, List.lookup, appConfig, b1, b2, b3, b4]
  rw [hnone]
  rfl

/-- Single-character global replacement distributes over append. -/
theorem replaceAllChar_append (c : Char) (rep : List Char) (a b : List Char) :
    replaceAllChar c rep (a ++ b)
      = replaceAllChar c rep a ++ replaceAllChar c rep b := by
  induction a with
  | nil => rfl
  | cons x xs ih => simp [replaceAllChar, ih]

/-- The escaping pass splits off its first character. -/
theorem escapeChars_cons (x : Char) (xs : List Char) :
    escapeChars (x :: xs) = escapeChars [x] ++ escapeChars xs := by
  show escapeChars ([x] ++ xs) = _
  unfold escapeChars
  rw [replaceAllChar_append, replaceAllChar_append, replaceAllChar_append,
    replaceAllChar_append, replaceAllChar_append]

/-- On a single character the five sequential replacements compute the
entity map: the ampersand pass runs first, so entities introduced by the
later passes are never re-escaped. -/
theorem escapeChars_single (x : Char) : escapeChars [x] = entityOf x := by
  by_cases h1 : x = '&'
  · subst h1; decide
  by_cases h2 : x = '<'
  · subst h2; decide
  by_cases h3 : x = '>'
  · subst h3; decide
  by_cases h4 : x = '"'
  · subst h4; decide
  by_cases h5 : x = '\''
  · subst h5; decide
  simp [escapeChars, replaceAllChar, entityOf, h1, h2, h3, h4, h5]

/-- The five sequential replacements of `escapeHtml` amount to one pass of
the per-character entity map. -/
theorem escapeChars_join (cs : List Char) :
    escapeChars cs = (cs.map entityOf).flatten := by
  induction cs with
  | nil => rfl
  | cons x xs ih =>
    rw [escapeChars_cons, escapeChars_single, ih]
    simp

/-- No entity expansion contains a raw angle bracket. -/
theorem entityOf_no_angle (c : Char) {c' : Char} (h : c' ∈ entityOf c) :
    c' ≠ '<' ∧ c' ≠ '>' := by
  unfold entityOf at h
  by_cases h1 : c = '&'
  · rw [if_pos h1] at h
    have hall : ∀ y ∈ "&amp;".data, y ≠ '<' ∧ y ≠ '>' := by decide
    exact hall c' h
  rw [if_neg h1] at h
  by_cases h2 : c = '<'
  · rw [if_pos h2] at h
    have hall : ∀ y ∈ "&lt;".data, y ≠ '<' ∧ y ≠ '>' := by decide
    exact hall c' h
  rw [if_neg h2] at h
  by_cases h3 : c = '>'
  · rw [if_pos h3] at h
    have hall : ∀ y ∈ "&gt;".data, y ≠ '<' ∧ y ≠ '>' := by decide
    exact hall c' h
  rw [if_neg h3] at h
  by_cases h4 : c = '"'
  · rw [if_pos h4] at h
    have hall : ∀ y ∈ "&quot;".data, y ≠ '<' ∧ y ≠ '>' := by decide
    exact hall c' h
  rw [if_neg h4] at h
  by_cases h5 : c = '\''
  · rw [if_pos h5] at h
    have hall : ∀ y ∈ "&#039;".data, y ≠ '<' ∧ y ≠ '>' := by decide
    exact hall c' h
  rw [if_neg h5] at h
  simp at h
  subst h
  exact ⟨h2, h3⟩

/-- The escaped output never contains a raw angle bracket. -/
theorem escapeChars_no_angle {cs : List Char} {c : Char}
    (h : c ∈ escapeChars cs) : c ≠ '<' ∧ c ≠ '>' := by
  rw [escapeChars_join, List.mem_flatten] at h
  obtain ⟨l, hl, hcl⟩ := h
  rw [List.mem_map] at hl
  obtain ⟨x, _, rfl⟩ := hl
  exact entityOf_no_angle x hcl

/-- Hex digits are never angle brackets. -/
theorem hexDigit_no_angle (n : Nat) : hexDigit n ≠ '<' ∧ hexDigit n ≠ '>' := by
  unfold hexDigit
  have hall : ∀ y ∈ '0' :: "0123456789ABCDEF".data, y ≠ '<' ∧ y ≠ '>' := by decide
  apply hall
  rcases h : "0123456789ABCDEF".data[n]? with _ | c
  · rw [List.getD_eq_getElem?_getD, h]
    simp
  · rw [List.getD_eq_getElem?_getD, h]
    simp only [Option.getD_some]
    exact List.mem_cons_of_mem _ (List.getElem?_mem h)

/-- The URI-encoded map-search segment never contains a raw angle bracket. -/
theorem encodeURIComponent_no_angle {s : String} {c : Char}
    (h : c ∈ (encodeURIComponent s).data) : c ≠ '<' ∧ c ≠ '>' := by
  have h' : c ∈ s.data.flatMap (fun a =>
      if uriUnreserved a then [a]
      else (utf8Bytes a).flatMap
        (fun b => ['%', hexDigit (b / 16), hexDigit (b % 16)])) := h
  rw [List.mem_flatMap] at h'
  obtain ⟨a, _, hc⟩ := h'
  by_cases hu : uriUnreserved a = true
  · rw [if_pos hu] at hc
    simp at hc
    subst hc
    constructor <;> rintro rfl <;> revert hu <;> decide
  · rw [if_neg hu] at hc
    rw [List.mem_flatMap] at hc
    obtain ⟨b, _, hcb⟩ := hc
    simp at hcb
    rcases hcb with rfl | rfl | rfl
    · decide
    · exact hexDigit_no_angle _
    · exact hexDigit_no_angle _

/-- The cluster class decision restated over natural-number counts: the
rational comparisons against `length / 2` are exactly the
`2 * redCount` vs `length` trichotomy. -/
theorem clusterColorClass_ok {markerColors : List JSVal} {r : Nat}
    (h : countRed markerColors = .ok r) :
    clusterColorClass markerColors
      = .ok (if 2 * r = markerColors.length then "marker-cluster-split"
             else if markerColors.length < 2 * r then "marker-cluster-red"
             else "marker-cluster-blue") := by
  unfold clusterColorClass
  rw [h]
  have heq : ((r : ℚ) = (markerColors.length : ℚ) / 2)
      ↔ (2 * r = markerColors.length) := by
    rw [eq_div_iff (two_ne_zero)]
    constructor
    · intro hq
      have hn : (r * 2 : ℕ) = markerColors.length := by exact_mod_cast hq
      omega
    · intro hn
      have hn' : (r * 2 : ℕ) = markerColors.length := by omega
      exact_mod_cast congrArg (fun k : ℕ => (k : ℚ)) hn'
  have hgt : ((r : ℚ) > (markerColors.length : ℚ) / 2)
      ↔ (markerColors.length < 2 * r) := by
    rw [gt_iff_lt, div_lt_iff₀ (by norm_num : (0:ℚ) < 2)]
    constructor
    · intro hq
      have hn : markerColors.length < r * 2 := by exact_mod_cast hq
      omega
    · intro hn
      have hn' : markerColors.length < r * 2 := by omega
      exact_mod_cast hn'
  simp only [heq, hgt]

/-- C1, counterexample: the claim says every accepted record has finite
coordinates and every record whose coordinate does not parse to a finite
number is dropped; but `py = "Infinity"` passes the `!isNaN(parseFloat(..))`
check, so the record is accepted with a non-finite latitude. -/
theorem claim1_counterexample :
    normalizeStoreData [("py", .jstr "Infinity"), ("px", .jstr "121")] appConfig
      = .ok (.valid
        { name := .jstr "Unknown Store", latitude := .posInf,
          longitude := .finite 121, address := .jstr "", phone := .jstr "",
          flavorType := .jstr "", markerColor := .jstr "blue",
          isSpecialShape := false, displayColor := "#2b82cb" })
    ∧ JSNum.posInf.isFinite = false := by decide

/-- C1 (amended): normalize accepts a raw record iff both `py` and `px` are
truthy and parse to non-NaN numbers (finiteness is not checked: an infinity
passes); for every accepted record the latitude and longitude are exactly the
parsed values, which are never NaN but may be infinite; every other record is
rejected (dropped). -/
theorem claim1_coordinate_validation (raw : RawObj) (cfg : WorkerConfig) :
    (normalizeStoreData raw cfg = .ok .invalid ↔ hasCoordinates raw = false)
    ∧ (∀ s : StoreRecord, normalizeStoreData raw cfg = .ok (.valid s) →
        hasCoordinates raw = true
        ∧ s.latitude = parseFloat (getField raw "py")
        ∧ s.longitude = parseFloat (getField raw "px")
        ∧ s.latitude.isNaN = false ∧ s.longitude.isNaN = false) := by
  refine ⟨normalize_invalid_iff raw cfg, ?_⟩
  intro s h
  obtain ⟨hcoord, _, hlat, hlon, _⟩ := normalize_ok_valid h
  refine ⟨hcoord, hlat, hlon, ?_, ?_⟩
  · rw [hlat]
    revert hcoord
    unfold hasCoordinates
    cases (parseFloat (getField raw "py")).isNaN <;>
      cases (parseFloat (getField raw "px")).isNaN <;> simp
  · rw [hlon]
    revert hcoord
    unfold hasCoordinates
    cases (parseFloat (getField raw "py")).isNaN <;>
      cases (parseFloat (getField raw "px")).isNaN <;> simp

/-- Witness for the amended C1 at concrete inputs: a record with parseable
decimal coordinates is accepted with the parsed values, and the empty record
is rejected. -/
theorem claim1_witness :
    (hasCoordinates [("py", JSVal.jstr "25.03"), ("px", JSVal.jstr "121.5")] = true
      ∧ ({ name := JSVal.jstr "Unknown Store",
           latitude := JSNum.finite (mkRat 2503 100),
           longitude := JSNum.finite (mkRat 1215 10), address := JSVal.jstr "",
           phone := JSVal.jstr "", flavorType := JSVal.jstr "",
           markerColor := JSVal.jstr "blue", isSpecialShape := false,
           displayColor := "#2b82cb" } : StoreRecord).latitude
          = parseFloat (getField [("py", JSVal.jstr "25.03"),
              ("px", JSVal.jstr "121.5")] "py")
      ∧ ({ name := JSVal.jstr "Unknown Store",
           latitude := JSNum.finite (mkRat 2503 100),
           longitude := JSNum.finite (mkRat 1215 10), address := JSVal.jstr "",
           phone := JSVal.jstr "", flavorType := JSVal.jstr "",
           markerColor := JSVal.jstr "blue", isSpecialShape := false,
           displayColor := "#2b82cb" } : StoreRecord).longitude
          = parseFloat (getField [("py", JSVal.jstr "25.03"),
              ("px", JSVal.jstr "121.5")] "px")
      ∧ (JSNum.finite (mkRat 2503 100)).isNaN = false
      ∧ (JSNum.finite (mkRat 1215 10)).isNaN = false)
    ∧ normalizeStoreData [("py", JSVal.jstr "")] appConfig = .ok .invalid := by
  refine ⟨?_, ?_⟩
  · exact (claim1_coordinate_validation
      [("py", JSVal.jstr "25.03"), ("px", JSVal.jstr "121.5")] appConfig).2
      _ (by decide)
  · exact (claim1_coordinate_validation
      [("py", JSVal.jstr "")] appConfig).1.mpr (by decide)

/-- C3: ingesting the columnar payload yields exactly the same result as
feeding the zipped flat objects through the legacy array path (for every
keys list, every row list and every configuration). -/
theorem claim3_columnar_legacy_roundtrip (ks : List String)
    (rows : List (List JSVal)) (cfg : WorkerConfig) :
    columnarStores (.arr ks) rows cfg
      = legacyStores (rows.map (buildStoreObj ks)) cfg :=
  columnarStores_eq_legacy ks rows cfg

/-- C5: the cluster icon class is the majority vote on the members' red/blue
classification with the three-way tie-break — strictly more than half red
gives the red class, exactly half the split class, strictly less the blue
class — and the three classes are pairwise distinct (the split visual is
never the red or blue class). -/
theorem claim5_cluster_majority (markerColors : List JSVal) (r : Nat)
    (h : countRed markerColors = .ok r) :
    clusterColorClass markerColors
      = .ok (if 2 * r = markerColors.length then "marker-cluster-split"
             else if markerColors.length < 2 * r then "marker-cluster-red"
             else "marker-cluster-blue")
    ∧ ("marker-cluster-split" ≠ "marker-cluster-red"
       ∧ "marker-cluster-split" ≠ "marker-cluster-blue") :=
  ⟨clusterColorClass_ok h, by decide⟩

/-- Witness for C5: a cluster of four markers with exactly two red members
gets the split class. -/
theorem claim5_witness :
    clusterColorClass [JSVal.jstr "red", JSVal.jstr "red",
        JSVal.jstr "blue", JSVal.jstr "blue"] = .ok "marker-cluster-split" := by
  have h := claim5_cluster_majority [JSVal.jstr "red", JSVal.jstr "red",
      JSVal.jstr "blue", JSVal.jstr "blue"] 2 (by decide)
  simpa using h.1

/-- C6: whenever ingestion succeeds, the surviving store list is exactly the
normalized non-rejected records in source order, and its length is the input
record count minus the rejected count — on both the legacy and the columnar
path. -/
theorem claim6_ordered_survivors :
    (∀ (elems : List RawObj) (cfg : WorkerConfig) (stores : List StoreRecord),
      legacyStores elems cfg = .ok stores →
      stores = survivorsOf elems cfg
      ∧ stores.length + rejectedCount elems cfg = elems.length)
    ∧ (∀ (ks : List String) (rows : List (List JSVal)) (cfg : WorkerConfig)
        (stores : List StoreRecord),
      columnarStores (.arr ks) rows cfg = .ok stores →
      stores = survivorsOf (rows.map (buildStoreObj ks)) cfg
      ∧ stores.length + rejectedCount (rows.map (buildStoreObj ks)) cfg
          = rows.length) := by
  refine ⟨fun elems cfg stores h => legacyStores_ok h, ?_⟩
  intro ks rows cfg stores h
  rw [columnarStores_eq_legacy] at h
  have hres := legacyStores_ok h
  simpa [List.length_map] using hres

/-- Witness for C6: of two records, the one with an unparseable latitude is
dropped, the other survives, and 1 + 1 = 2. -/
theorem claim6_witness :
    [({ name := JSVal.jstr "Unknown Store", latitude := JSNum.finite 25,
        longitude := JSNum.finite 121, address := JSVal.jstr "",
        phone := JSVal.jstr "", flavorType := JSVal.jstr "",
        markerColor := JSVal.jstr "blue", isSpecialShape := false,
        displayColor := "#2b82cb" } : StoreRecord)]
      = survivorsOf [[("py", JSVal.jstr "25"), ("px", JSVal.jstr "121")],
          [("py", JSVal.jstr "bad"), ("px", JSVal.jstr "121")]] appConfig
    ∧ 1 + rejectedCount [[("py", JSVal.jstr "25"), ("px", JSVal.jstr "121")],
          [("py", JSVal.jstr "bad"), ("px", JSVal.jstr "121")]] appConfig = 2 := by
  have h := claim6_ordered_survivors.1
    [[("py", JSVal.jstr "25"), ("px", JSVal.jstr "121")],
     [("py", JSVal.jstr "bad"), ("px", JSVal.jstr "121")]] appConfig
    [{ name := JSVal.jstr "Unknown Store", latitude := JSNum.finite 25,
       longitude := JSNum.finite 121, address := JSVal.jstr "",
       phone := JSVal.jstr "", flavorType := JSVal.jstr "",
       markerColor := JSVal.jstr "blue", isSpecialShape := false,
       displayColor := "#2b82cb" }] (by decide)
  simpa using h

/-- C7, counterexample: the claim says normalize returns a record or a
rejection whatever the JSON types of the fields; but a record with valid
coordinates and a numeric `flavorType` makes `flavorType.includes` throw a
TypeError instead. -/
theorem claim7_counterexample :
    normalizeStoreData [("py", .jstr "1"), ("px", .jstr "2"),
        ("flavorType", .jnum (.finite 5))] appConfig
      = .error "TypeError: includes is not a function" := by decide

/-- C7 (amended): normalization is total — returning a record or the
rejection value, never throwing — provided `flavorType` and `markerColor`
are strings or falsy (on truthy non-string values there it throws the
`.includes` TypeError), and it is deterministic: the same raw record always
yields the same result. -/
theorem claim7_total_deterministic (raw : RawObj) (cfg : WorkerConfig)
    (hf : stringOrFalsy (getField raw "flavorType") = true)
    (hm : stringOrFalsy (getField raw "markerColor") = true) :
    (∃ r : NormResult, normalizeStoreData raw cfg = .ok r)
    ∧ normalizeStoreData raw cfg = normalizeStoreData raw cfg :=
  ⟨normalize_total hf hm, rfl⟩

/-- Witness for the amended C7 at a concrete record with both fields absent. -/
theorem claim7_witness :
    (∃ r : NormResult,
      normalizeStoreData [("py", JSVal.jstr "1"), ("px", JSVal.jstr "2")] appConfig
        = .ok r)
    ∧ normalizeStoreData [("py", JSVal.jstr "1"), ("px", JSVal.jstr "2")] appConfig
        = normalizeStoreData [("py", JSVal.jstr "1"), ("px", JSVal.jstr "2")] appConfig :=
  claim7_total_deterministic [("py", JSVal.jstr "1"), ("px", JSVal.jstr "2")]
    appConfig (by decide) (by decide)

/-- C2, counterexample: the claim says every special-shape record is rendered
with one of the two striped icon variants; but the icon is looked up by the
raw `markerColor` token, so a special-shape record whose token is plain
`red` gets the plain red pin, not a striped one. -/
theorem claim2_counterexample :
    normalizeStoreData scenarioLegacyElem appConfig
      = .ok (.valid scenarioLegacyRec)
    ∧ scenarioLegacyRec.isSpecialShape = true
    ∧ selectIcon scenarioLegacyRec.markerColor = createPinIcon "marker-red"
    ∧ createPinIcon "marker-red" ≠ createPinIcon "marker-blue-striped"
    ∧ createPinIcon "marker-red" ≠ createPinIcon "marker-red-striped" := by decide

/-- C2 (amended): for every record accepted by normalization, the dual (red)
display color holds iff the `markerColor` token contains `red` (absence of
the field defaults the token to `blue`), `isSpecialShape` holds iff
`flavorType` contains the special-shape marker, and the rendered icon is the
exact-token lookup among the four configured keys with the blue default as
fallback — in particular a striped icon appears iff the token itself is
`blue-striped` or `red-striped`, independently of `isSpecialShape`. -/
theorem claim2_classification (raw : RawObj) (s : StoreRecord)
    (h : normalizeStoreData raw appConfig = .ok (.valid s)) :
    ∃ mc fl : String,
      s.markerColor = .jstr mc ∧ s.flavorType = .jstr fl
      ∧ (s.displayColor = appConfig.COLORS.RED ↔ containsSub mc "red" = true)
      ∧ (truthy (getField raw "markerColor") = false → mc = "blue")
      ∧ s.isSpecialShape = containsSub fl "特殊造型"
      ∧ selectIcon s.markerColor
          = (icons.lookup mc).getD (createPinIcon "marker-blue")
      ∧ ((selectIcon s.markerColor = createPinIcon "marker-blue-striped"
          ∨ selectIcon s.markerColor = createPinIcon "marker-red-striped")
         ↔ (mc = "blue-striped" ∨ mc = "red-striped")) := by
  obtain ⟨_, _, _, _, _, _, ⟨fl, hfl, hsfl, hshape⟩, ⟨mc, hmc, hsmc, hdc⟩⟩ :=
    normalize_ok_valid h
  refine ⟨mc, fl, hsmc, hsfl, ?_, ?_, hshape, ?_, ?_⟩
  · by_cases hr : containsSub mc "red" = true
    · rw [hdc, if_pos hr]
      simp [hr, appConfig]
    · rw [hdc, if_neg hr]
      constructor
      · intro hbad
        exact absurd hbad (by decide)
      · intro hbad
        exact absurd hbad hr
  · intro hfalse
    rw [jsOr, hfalse] at hmc
    simp only [Bool.false_eq_true, if_false, JSVal.jstr.injEq] at hmc
    exact hmc.symm
  · rw [hsmc, selectIcon_jstr]
  · rw [hsmc, selectIcon_jstr]
    by_cases h1 : mc = "blue"
    · subst h1; decide
    by_cases h2 : mc = "red"
    · subst h2; decide
    by_cases h3 : mc = "blue-striped"
    · subst h3; decide
    by_cases h4 : mc = "red-striped"
    · subst h4; decide
    have b1 : (mc == "blue") = false := beq_eq_false_iff_ne.mpr h1
    have b2 : (mc == "red") = false := beq_eq_false_iff_ne.mpr h2
    have b3 : (mc == "blue-striped") = false := beq_eq_false_iff_ne.mpr h3
    have b4 : (mc == "red-striped") = false := beq_eq_false_iff_ne.mpr h4
    have hnone : icons.lookup mc = none := by
      simp [icons, List.lookup, appConfig, b1, b2, b3, b4]
    rw [hnone]
    constructor
    · intro hcontra
      rcases hcontra with hc | hc <;> exact absurd hc (by decide)
    · intro hcontra
      rcases hcontra with rfl | rfl
      · exact absurd rfl h3
      · exact absurd rfl h4

/-- Witness for the amended C2: the sample striped record is special-shape,
blue-classified, and its `blue-striped` token selects the striped blue pin. -/
theorem claim2_witness :
    sampleStripedRec.isSpecialShape = containsSub "特殊造型" "特殊造型"
    ∧ selectIcon sampleStripedRec.markerColor
        = (icons.lookup "blue-striped").getD (createPinIcon "marker-blue") := by
  obtain ⟨mc, fl, hmc, hfl, _, _, hshape, hicon, _⟩ :=
    claim2_classification sampleStripedRaw sampleStripedRec (by decide)
  have hmc' : mc = "blue-striped" := by
    have := hmc.symm
    simp only [sampleStripedRec, JSVal.jstr.injEq] at this
    exact this
  have hfl' : fl = "特殊造型" := by
    have := hfl.symm
    simp only [sampleStripedRec, JSVal.jstr.injEq] at this
    exact this
  subst hmc' hfl'
  exact ⟨hshape, hicon⟩

/-- C4, counterexample: the claim says ingestion fails with the format error
iff the payload matches neither accepted shape; but shape detection only
tests `keys` for truthiness, so an object whose `keys` is the number 1 (not
a sequence) with an empty `data` array succeeds with an empty store list
instead of failing. -/
theorem claim4_counterexample :
    matchesAcceptedShape (.object ⟨.atom (.jnum (.finite 1)), .arr [], .undefined⟩)
      = false
    ∧ fetchAndProcessStores appConfig
        (.ok (.object ⟨.atom (.jnum (.finite 1)), .arr [], .undefined⟩))
      = .success [] (.jstr "") := by decide

/-- C4 (amended): the worker posts the `Invalid data format` error iff its
own shape test fails — the payload is an object without a truthy `keys` or
without an array `data`, and is not a bare array (`keys` need not be a
sequence, only truthy); a columnar payload with an empty `data` array and a
bare empty array both succeed with an empty store list; a non-ok HTTP
response fails with the network error. -/
theorem claim4_shape_errors :
    (∀ (rd : RawData) (cfg : WorkerConfig),
      fetchAndProcessStores cfg (.ok rd) = .error "Invalid data format"
        ↔ shapeDetected rd = false)
    ∧ (∀ (ks : List String) (lu : JSVal) (cfg : WorkerConfig),
        fetchAndProcessStores cfg
            (.ok (.object ⟨.arr ks, .arr [], lu⟩))
          = .success [] (jsOr lu (.jstr "")))
    ∧ (∀ cfg : WorkerConfig,
        fetchAndProcessStores cfg (.ok (.array [])) = .success [] (.jstr ""))
    ∧ (∀ (cfg : WorkerConfig) (st : String),
        fetchAndProcessStores cfg (.notOk st)
          = .error ("Network response was not ok: " ++ st)) := by
  refine ⟨?_, ?_, ?_, ?_⟩
  · intro rd cfg
    rw [fetch_error_iff]
    exact processRawData_format_iff rd cfg
  · intro ks lu cfg
    rfl
  · intro cfg
    rfl
  · intro cfg st
    rfl

/-- Witness for the amended C4 at concrete payloads: a keys-less object is a
format error, and the three success/error scenarios at concrete values. -/
theorem claim4_witness :
    (fetchAndProcessStores appConfig
        (.ok (.object ⟨.atom .undefined, .arr [], .undefined⟩))
      = .error "Invalid data format"
      ↔ shapeDetected (.object ⟨.atom .undefined, .arr [], .undefined⟩) = false)
    ∧ fetchAndProcessStores appConfig
        (.ok (.object ⟨.arr ["NAME"], .arr [], .jstr "2024-01-01"⟩))
        = .success [] (jsOr (.jstr "2024-01-01") (.jstr ""))
    ∧ fetchAndProcessStores appConfig (.ok (.array [])) = .success [] (.jstr "")
    ∧ fetchAndProcessStores appConfig (.notOk "Not Found")
        = .error ("Network response was not ok: " ++ "Not Found") :=
  ⟨claim4_shape_errors.1 _ appConfig,
   claim4_shape_errors.2.1 ["NAME"] (.jstr "2024-01-01") appConfig,
   claim4_shape_errors.2.2.1 appConfig,
   claim4_shape_errors.2.2.2 appConfig "Not Found"⟩

/-- C8: on a successful legacy ingestion of a nonempty array, a truthy
`last_updated` on the first element becomes the timestamp (a falsy or absent
one leaves the empty string), while the first element is still normalized
and filtered like every other record: the surviving list is the ordered
survivors of the whole array, the first element heading it exactly when it
is accepted, dropped exactly when its coordinate check fails. -/
theorem claim8_legacy_timestamp (e : RawObj) (rest : List RawObj)
    (cfg : WorkerConfig) (stores : List StoreRecord) (lu : JSVal)
    (h : processLegacy (e :: rest) cfg = .ok (stores, lu)) :
    (truthy (getField e "last_updated") = true → lu = getField e "last_updated")
    ∧ (truthy (getField e "last_updated") = false → lu = .jstr "")
    ∧ stores = survivorsOf (e :: rest) cfg
    ∧ (∀ s : StoreRecord, normalizeStoreData e cfg = .ok (.valid s) →
        stores = s :: survivorsOf rest cfg)
    ∧ (hasCoordinates e = false → stores = survivorsOf rest cfg) := by
  unfold processLegacy at h
  cases hl : legacyStores (e :: rest) cfg with
  | error m => rw [hl] at h; simp at h
  | ok st =>
    rw [hl] at h
    simp only [Except.ok.injEq, Prod.mk.injEq] at h
    obtain ⟨hst, hlu⟩ := h
    subst hst
    obtain ⟨hsv, _⟩ := legacyStores_ok hl
    refine ⟨?_, ?_, hsv, ?_, ?_⟩
    · intro ht
      rw [← hlu]
      simp [legacyLastUpdated, ht]
    · intro ht
      rw [← hlu]
      simp [legacyLastUpdated, ht]
    · intro s hs
      rw [hsv]
      simp [survivorsOf, hs]
    · intro hc
      have hinv : normalizeStoreData e cfg = .ok .invalid :=
        (normalize_invalid_iff e cfg).mpr hc
      rw [hsv]
      simp [survivorsOf, hinv]

/-- Witness for C8 at the spec's legacy scenario: the timestamp is the first
element's `last_updated` and the element itself survives at the head. -/
theorem claim8_witness :
    JSVal.jstr "2024-02-02" = getField scenarioLegacyElem "last_updated"
    ∧ [scenarioLegacyRec] = scenarioLegacyRec :: survivorsOf [] appConfig := by
  have h := claim8_legacy_timestamp scenarioLegacyElem [] appConfig
    [scenarioLegacyRec] (.jstr "2024-02-02") (by decide)
  exact ⟨h.1 (by decide), h.2.2.2.1 scenarioLegacyRec (by decide)⟩

/-- C9: the HTML escaping replaces exactly the five characters ampersand,
less-than, greater-than, double quote and apostrophe with their entities —
applied ampersand-first, the five sequential passes amount to one pass of the
per-character entity map, so no entity is double-escaped — the escaped output
and the URI-encoded link segment never contain a raw angle bracket (hence a
`<script>` name contributes none to the popup), and the popup content embeds
exactly the escaped name, address, phone and flavor text plus the URI-encoded
name in the link. -/
theorem claim9_popup_escaping :
    (∀ cs : List Char, escapeChars cs = (cs.map entityOf).flatten)
    ∧ (∀ (cs : List Char) (c : Char), c ∈ escapeChars cs → c ≠ '<' ∧ c ≠ '>')
    ∧ (∀ (s : String) (c : Char),
        c ∈ (encodeURIComponent s).data → c ≠ '<' ∧ c ≠ '>')
    ∧ (∀ store : StoreRecord,
        createStorePopupContent store
          = "\n            <div class=\"store-popup\">\n                <b>\n                    <a href=\""
            ++ ("https://www.google.com/maps/search/"
                ++ encodeURIComponent (jsToStr store.name))
            ++ "\" \n                       target=\"_blank\" \n                       rel=\"noopener noreferrer\" \n                       class=\""
            ++ uiClassPopupLink
            ++ "\">\n                        "
            ++ escapeHtml store.name
            ++ "\n                    </a>\n                </b><br>\n                <span class=\""
            ++ (if store.isSpecialShape then
                  uiClassPopupFlavor ++ " " ++ uiClassPopupFlavorMultiline
                else uiClassPopupFlavor)
            ++ "\" style=\""
            ++ ("color: " ++ store.displayColor ++ ";")
            ++ "\">\n                    "
            ++ (if store.isSpecialShape then
                  replaceFirstStr (escapeHtml store.flavorType) " (" "<br>("
                else escapeHtml store.flavorType)
            ++ "\n                </span><br>\n                地址: "
            ++ escapeHtml store.address
            ++ "<br>\n                電話: "
            ++ escapeHtml store.phone
            ++ "\n            </div>\n        ") := by
  refine ⟨escapeChars_join, ?_, ?_, ?_⟩
  · intro cs c hc
    exact escapeChars_no_angle hc
  · intro s c hc
    exact encodeURIComponent_no_angle hc
  · intro store
    rfl

/-- Witness for C9: the `<script>` name escapes to `&lt;script&gt;`, and the
ampersand it contains is not a raw angle bracket. -/
theorem claim9_witness :
    escapeChars "<script>".data = ("<script>".data.map entityOf).flatten
    ∧ ('&' ≠ '<' ∧ '&' ≠ '>') :=
  ⟨claim9_popup_escaping.1 "<script>".data,
   claim9_popup_escaping.2.1 "<script>".data '&' (by decide)⟩

/-- C10: a store whose markerColor token is not exactly one of the four
configured icon keys falls back to the default blue pin, and when such a
token merely contains `red` the normalized record still gets the red display
color in its popup while being pinned with the blue default icon. -/
theorem claim10_icon_fallback :
    (∀ k : String,
      ¬(k = "blue" ∨ k = "red" ∨ k = "blue-striped" ∨ k = "red-striped") →
      selectIcon (.jstr k) = createPinIcon "marker-blue")
    ∧ (∀ (raw : RawObj) (s : StoreRecord) (k : String),
        normalizeStoreData raw appConfig = .ok (.valid s) →
        s.markerColor = .jstr k →
        ¬(k = "blue" ∨ k = "red" ∨ k = "blue-striped" ∨ k = "red-striped") →
        containsSub k "red" = true →
        s.displayColor = appConfig.COLORS.RED
        ∧ selectIcon s.markerColor = createPinIcon "marker-blue") := by
  constructor
  · intro k hk
    push_neg at hk
    exact selectIcon_miss hk.1 hk.2.1 hk.2.2.1 hk.2.2.2
  · intro raw s k h hmk hk hred
    obtain ⟨_, _, _, _, _, _, _, ⟨mc, hmc, hsmc, hdc⟩⟩ := normalize_ok_valid h
    have hkmc : mc = k := by
      have hj := hsmc.symm.trans hmk
      simpa using hj
    subst hkmc
    push_neg at hk
    constructor
    · rw [hdc, if_pos hred]
    · rw [hmk]
      exact selectIcon_miss hk.1 hk.2.1 hk.2.2.1 hk.2.2.2

/-- Witness for C10 at the `darkred` token: not one of the four keys, yet
containing `red` — red display color, blue default pin. -/
theorem claim10_witness :
    selectIcon (JSVal.jstr "darkred") = createPinIcon "marker-blue"
    ∧ (darkredRec.displayColor = appConfig.COLORS.RED
       ∧ selectIcon darkredRec.markerColor = createPinIcon "marker-blue") :=
  ⟨claim10_icon_fallback.1 "darkred" (by decide),
   claim10_icon_fallback.2 darkredRaw darkredRec "darkred" (by decide)
     (by decide) (by decide) (by decide)⟩
